import Mathlib

/-!
Shallow embedding of the SageMaker inference script that
`src/terraform/modules/ml/sample-model/create_placeholder_model.py`
emits as `inference.py` (the string built by `create_inference_script`).

The embedded functions are `input_fn` (the input normalizer) and
`output_fn` (the prediction formatter).  Python's dynamic dictionary,
list and string operations used by the script are modelled explicitly
over a JSON value type, with the exceptions the interpreter would raise
modelled as an error type.  JSON numbers are modelled as rationals.
-/

/-- A parsed JSON value, as returned by `json.loads`.  Numbers are
rationals; an object is its list of key/value entries (`json.loads`
produces objects with unique keys, later duplicates overwriting earlier
ones, so the entry list of a parsed object has at most one entry per
key). -/
inductive Json where
  | num (q : ℚ)
  | str (s : String)
  | bool (b : Bool)
  | null
  | arr (elems : List Json)
  | obj (entries : List (String × Json))

/-- The exceptions the inference script can raise, one constructor per
distinct raise site or interpreter error:
`jsonDecodeError` is `json.JSONDecodeError` from `json.loads`;
`missingKeyError` is the `ValueError` raised on line 120 when neither
recognized key is present; `unsupportedContentType` and
`unsupportedAccept` are the `ValueError`s raised on lines 122 and 158;
`typeError`, `keyError` and `attributeError` are the interpreter errors
from applying a dictionary/list/string operation to a value of the wrong
runtime type; `emptySequenceMax` is the `ValueError` raised by `max` on
an empty sequence. -/
inductive InfError where
  | jsonDecodeError
  | missingKeyError
  | unsupportedContentType (contentType : String)
  | unsupportedAccept (accept : String)
  | typeError
  | keyError
  | attributeError
  | emptySequenceMax
  deriving DecidableEq

/-- The value bound to `key` in a parsed object's entry list (first
binding; parsed objects have unique keys). -/
def lookupKey (entries : List (String × Json)) (key : String) : Option Json :=
  (entries.find? fun kv => kv.fst = key).map Prod.snd

/-- Substring test on character lists, modelling Python `in` between two
strings. -/
def charsContain (pat s : List Char) : Bool :=
  (List.range (s.length + 1)).any fun i => (s.drop i).take pat.length = pat

/-- Python equality between the string `key` and a JSON value: true only
for the equal string. -/
def jsonIsStr (key : String) : Json → Bool
  | .str t => key = t
  | _ => false

/-- Python membership `key in value` for a string `key`: key test on a
dictionary, element test on a list, substring test on a string, and
`TypeError` on the remaining (non-container) values. -/
def pyIn (value : Json) (key : String) : Except InfError Bool :=
  match value with
  | .obj entries => .ok (entries.any fun kv => kv.fst = key)
  | .arr elems => .ok (elems.any (jsonIsStr key))
  | .str s => .ok (charsContain key.toList s.toList)
  | _ => .error .typeError

/-- Python subscript `value[key]` for a string `key`: dictionary lookup
(`KeyError` when absent), `TypeError` on any non-dictionary value. -/
def pyGetItem (value : Json) (key : String) : Except InfError Json :=
  match value with
  | .obj entries =>
    match lookupKey entries key with
    | some v => .ok v
    | none => .error .keyError
  | _ => .error .typeError

/-- Python iteration `for x in value`: the elements of a list, the
single-character strings of a string, the keys of a dictionary, and
`TypeError` on non-iterable values. -/
def pyIterate (value : Json) : Except InfError (List Json) :=
  match value with
  | .arr elems => .ok elems
  | .str s => .ok (s.toList.map fun c => Json.str (String.mk [c]))
  | .obj entries => .ok (entries.map fun kv => Json.str kv.fst)
  | _ => .error .typeError

/-- Python `value.get(key, default)`: defaulted dictionary lookup;
`AttributeError` on any non-dictionary value, which has no `get`
method. -/
def pyDictGet (value : Json) (key : String) (dflt : Json) : Except InfError Json :=
  match value with
  | .obj entries => .ok ((lookupKey entries key).getD dflt)
  | _ => .error .attributeError

/-- One iteration of the batch loop (inference.py lines 111-116): the
row `[contact.get(day_of_week, 0), contact.get(hour_of_day, 12),
contact.get(previous_answer_rate, 0.5)]`. -/
def contactRow (contact : Json) : Except InfError Json :=
  match pyDictGet contact "day_of_week" (Json.num 0) with
  | .error e => .error e
  | .ok d =>
    match pyDictGet contact "hour_of_day" (Json.num 12) with
    | .error e => .error e
    | .ok h =>
      match pyDictGet contact "previous_answer_rate" (Json.num (1/2)) with
      | .error e => .error e
      | .ok r => .ok (Json.arr [d, h, r])

/-- The batch loop itself: rows accumulated in contact order, stopping
at the first contact whose row construction raises. -/
def buildRows : List Json → Except InfError (List Json)
  | [] => .ok []
  | contact :: rest =>
    match contactRow contact with
    | .error e => .error e
    | .ok row =>
      match buildRows rest with
      | .error e => .error e
      | .ok rows => .ok (row :: rows)

/-- The body of `input_fn` after the content-type gate, applied to the
value `json.loads` produced (inference.py lines 104-120).  The result
matrix is the list of rows.  `np.array([input_data[features]])` wraps
the features value as the single row, so the single branch returns
`[v]` for the value `v` bound to `features`.  One caveat: with the
artifact's pinned numpy 1.24.3, `np.array` raises `ValueError` on an
inhomogeneous (ragged) nested sequence; that error path is not
modelled, so theorems about the single branch quantify only over
non-sequence values and well-formed feature rows, where the wrap is
exact. -/
def normalizeParsed (input_data : Json) : Except InfError (List Json) :=
  match pyIn input_data "features" with
  | .error e => .error e
  | .ok true =>
    match pyGetItem input_data "features" with
    | .error e => .error e
    | .ok v => .ok [v]
  | .ok false =>
    match pyIn input_data "contacts" with
    | .error e => .error e
    | .ok true =>
      match pyGetItem input_data "contacts" with
      | .error e => .error e
      | .ok v =>
        match pyIterate v with
        | .error e => .error e
        | .ok contacts => buildRows contacts
    | .ok false => .error .missingKeyError

/-- `input_fn` (inference.py lines 85-122).  The request body is `some
j` when the bytes parse to the JSON value `j` and `none` when
`json.loads` would raise; the content-type test precedes parsing, so an
unsupported content type is rejected before the body is ever parsed. -/
def input_fn (request_body : Option Json) (content_type : String) :
    Except InfError (List Json) :=
  if content_type = "application/json" then
    match request_body with
    | none => .error .jsonDecodeError
    | some input_data => normalizeParsed input_data
  else .error (.unsupportedContentType content_type)

/-- The dictionary `predict_fn` returns: a label per row and a
probability distribution per row. -/
structure Prediction where
  predictions : List Int
  probabilities : List (List ℚ)

/-- Python `max` over a sequence of numbers: `ValueError` (modelled as
`none`) on an empty sequence, otherwise the greatest element. -/
def pyMax : List ℚ → Option ℚ
  | [] => none
  | x :: xs => some (xs.foldl max x)

/-- The list comprehension on inference.py line 149:
`[float(max(probs)) for probs in probabilities]`. -/
def confidences : List (List ℚ) → Except InfError (List ℚ)
  | [] => .ok []
  | probs :: rest =>
    match pyMax probs with
    | none => .error .emptySequenceMax
    | some m =>
      match confidences rest with
      | .error e => .error e
      | .ok cs => .ok (m :: cs)

/-- The `predictions.tolist()` step: each integer label as a JSON
number. -/
def hoursJson (labels : List Int) : List Json :=
  labels.map fun (hour : Int) => Json.num (hour : ℚ)

/-- `output_fn` (inference.py lines 134-158).  The `json.dumps` step is
modelled as returning the result object itself, paired with the accept
type as in the source's `return json.dumps(result), accept`. -/
def output_fn (prediction : Prediction) (accept : String) :
    Except InfError (Json × String) :=
  if accept = "application/json" then
    match confidences prediction.probabilities with
    | .error e => .error e
    | .ok conf =>
      .ok (Json.obj
        [("optimal_hours", Json.arr (hoursJson prediction.predictions)),
         ("confidence", Json.arr (conf.map Json.num))], accept)
  else .error (.unsupportedAccept accept)

/-- The row the batch loop builds from a contact that is a parsed
object: present keys pass through, absent keys take the defaults 0, 12
and 1/2. -/
def objRow (entries : List (String × Json)) : Json :=
  Json.arr
    [(lookupKey entries "day_of_week").getD (Json.num 0),
     (lookupKey entries "hour_of_day").getD (Json.num 12),
     (lookupKey entries "previous_answer_rate").getD (Json.num (1/2))]

theorem contactRow_obj (entries : List (String × Json)) :
    contactRow (Json.obj entries) = .ok (objRow entries) := rfl

theorem lookupKey_any (entries : List (String × Json)) (key : String) (v : Json)
    (h : lookupKey entries key = some v) :
    (entries.any fun kv => kv.fst = key) = true := by
  unfold lookupKey at h
  rcases Option.map_eq_some'.mp h with ⟨kv, hfind, _⟩
  have hmem := List.mem_of_find?_eq_some hfind
  have hp := List.find?_some hfind
  simp only [List.any_eq_true]
  exact ⟨kv, hmem, hp⟩

theorem normalizeParsed_features (entries : List (String × Json)) (v : Json)
    (h : lookupKey entries "features" = some v) :
    normalizeParsed (Json.obj entries) = .ok [v] := by
  have hany := lookupKey_any entries "features" v h
  simp [normalizeParsed, pyIn, pyGetItem, hany, h]

theorem contactRow_error (c : Json) (e : InfError) (h : contactRow c = .error e) :
    e = .attributeError := by
  cases c <;> simp_all [contactRow, pyDictGet]

theorem buildRows_error (cs : List Json) (e : InfError) (h : buildRows cs = .error e) :
    e = .attributeError := by
  induction cs with
  | nil => simp [buildRows] at h
  | cons c rest ih =>
    unfold buildRows at h
    cases hc : contactRow c with
    | error ec =>
      rw [hc] at h
      simp at h
      subst h
      exact contactRow_error c _ hc
    | ok row =>
      rw [hc] at h
      cases hb : buildRows rest with
      | error eb =>
        rw [hb] at h
        simp at h
        subst h
        exact ih hb
      | ok rows =>
        rw [hb] at h
        simp at h

theorem buildRows_ok (cs : List Json)
    (h : ∀ c ∈ cs, ∃ entries, c = Json.obj entries) :
    ∃ rows, buildRows cs = .ok rows ∧ rows.length = cs.length ∧
      ∀ i (h1 : i < cs.length) (h2 : i < rows.length),
        contactRow (cs.get ⟨i, h1⟩) = .ok (rows.get ⟨i, h2⟩) := by
  induction cs with
  | nil =>
    exact ⟨[], rfl, rfl, fun i h1 _ => absurd h1 (Nat.not_lt_zero i)⟩
  | cons c rest ih =>
    obtain ⟨rows, hrows, hlen, hpt⟩ := ih fun x hx => h x (List.mem_cons_of_mem c hx)
    obtain ⟨entries, rfl⟩ := h c (List.mem_cons_self c rest)
    refine ⟨objRow entries :: rows, ?_, by simp [hlen], ?_⟩
    · simp [buildRows, contactRow_obj, hrows]
    · intro i h1 h2
      cases i with
      | zero => exact contactRow_obj entries
      | succ n =>
        exact hpt n (Nat.lt_of_succ_lt_succ h1) (Nat.lt_of_succ_lt_succ h2)

theorem pyIn_error (v : Json) (key : String) (e : InfError)
    (h : pyIn v key = .error e) : e = .typeError := by
  cases v <;> simp_all [pyIn]

theorem pyGetItem_error (v : Json) (key : String) (e : InfError)
    (h : pyGetItem v key = .error e) : e = .typeError ∨ e = .keyError := by
  cases v with
  | obj entries =>
    cases hl : lookupKey entries key with
    | some w => simp [pyGetItem, hl] at h
    | none => simp [pyGetItem, hl] at h; exact Or.inr h.symm
  | num q => simp [pyGetItem] at h; exact Or.inl h.symm
  | str s => simp [pyGetItem] at h; exact Or.inl h.symm
  | bool b => simp [pyGetItem] at h; exact Or.inl h.symm
  | null => simp [pyGetItem] at h; exact Or.inl h.symm
  | arr elems => simp [pyGetItem] at h; exact Or.inl h.symm

theorem pyIterate_error (v : Json) (e : InfError)
    (h : pyIterate v = .error e) : e = .typeError := by
  cases v <;> simp_all [pyIterate]

theorem normalizeParsed_missing_iff (j : Json) :
    normalizeParsed j = .error .missingKeyError ↔
      pyIn j "features" = .ok false ∧ pyIn j "contacts" = .ok false := by
  constructor
  · intro h
    unfold normalizeParsed at h
    cases hf : pyIn j "features" with
    | error e0 =>
      rw [hf] at h; simp at h; subst h
      exact absurd (pyIn_error _ _ _ hf) (by decide)
    | ok bf =>
      rw [hf] at h
      cases bf with
      | true =>
        cases hg : pyGetItem j "features" with
        | error e0 =>
          rw [hg] at h; simp at h; subst h
          rcases pyGetItem_error _ _ _ hg with h1 | h1 <;> exact absurd h1 (by decide)
        | ok v => rw [hg] at h; simp at h
      | false =>
        cases hc : pyIn j "contacts" with
        | error e0 =>
          rw [hc] at h; simp at h; subst h
          exact absurd (pyIn_error _ _ _ hc) (by decide)
        | ok bc =>
          rw [hc] at h
          cases bc with
          | true =>
            cases hg : pyGetItem j "contacts" with
            | error e0 =>
              rw [hg] at h; simp at h; subst h
              rcases pyGetItem_error _ _ _ hg with h1 | h1 <;> exact absurd h1 (by decide)
            | ok v =>
              rw [hg] at h
              simp at h
              cases hi : pyIterate v with
              | error e0 =>
                rw [hi] at h; simp at h; subst h
                exact absurd (pyIterate_error _ _ hi) (by decide)
              | ok contacts =>
                rw [hi] at h; simp at h
                exact absurd (buildRows_error _ _ h) (by decide)
          | false => exact ⟨rfl, rfl⟩
  · rintro ⟨hf, hc⟩
    unfold normalizeParsed
    rw [hf, hc]

theorem normalizeParsed_error_cases (j : Json) (e : InfError)
    (h : normalizeParsed j = .error e) :
    e = .typeError ∨ e = .keyError ∨ e = .missingKeyError ∨ e = .attributeError := by
  unfold normalizeParsed at h
  cases hf : pyIn j "features" with
  | error e0 =>
    rw [hf] at h; simp at h; subst h
    exact Or.inl (pyIn_error _ _ _ hf)
  | ok bf =>
    rw [hf] at h
    cases bf with
    | true =>
      cases hg : pyGetItem j "features" with
      | error e0 =>
        rw [hg] at h; simp at h; subst h
        rcases pyGetItem_error _ _ _ hg with h1 | h1
        · exact Or.inl h1
        · exact Or.inr (Or.inl h1)
      | ok v => rw [hg] at h; simp at h
    | false =>
      cases hc : pyIn j "contacts" with
      | error e0 =>
        rw [hc] at h; simp at h; subst h
        exact Or.inl (pyIn_error _ _ _ hc)
      | ok bc =>
        rw [hc] at h
        cases bc with
        | true =>
          cases hg : pyGetItem j "contacts" with
          | error e0 =>
            rw [hg] at h; simp at h; subst h
            rcases pyGetItem_error _ _ _ hg with h1 | h1
            · exact Or.inl h1
            · exact Or.inr (Or.inl h1)
          | ok v =>
            rw [hg] at h
            simp at h
            cases hi : pyIterate v with
            | error e0 =>
              rw [hi] at h; simp at h; subst h
              exact Or.inl (pyIterate_error _ _ hi)
            | ok contacts =>
              rw [hi] at h; simp at h
              exact Or.inr (Or.inr (Or.inr (buildRows_error _ _ h)))
        | false =>
          simp at h; subst h
          exact Or.inr (Or.inr (Or.inl rfl))

theorem foldl_max_mem (xs : List ℚ) (x : ℚ) : xs.foldl max x ∈ x :: xs := by
  induction xs generalizing x with
  | nil => simp
  | cons y ys ih =>
    rw [List.foldl_cons]
    rcases List.mem_cons.mp (ih (max x y)) with h1 | h1
    · rcases max_choice x y with hm | hm
      · rw [h1, hm]; exact List.mem_cons_self x (y :: ys)
      · rw [h1, hm]; exact List.mem_cons_of_mem x (List.mem_cons_self y ys)
    · exact List.mem_cons_of_mem x (List.mem_cons_of_mem y h1)

theorem le_foldl_max (xs : List ℚ) (x : ℚ) : ∀ y ∈ x :: xs, y ≤ xs.foldl max x := by
  induction xs generalizing x with
  | nil =>
    intro y hy
    simp at hy
    simp [hy]
  | cons z zs ih =>
    intro y hy
    rw [List.foldl_cons]
    have hbase := ih (max x z)
    rcases List.mem_cons.mp hy with rfl | hy1
    · exact le_trans (le_max_left y z) (hbase (max y z) (List.mem_cons_self _ _))
    · rcases List.mem_cons.mp hy1 with rfl | hy2
      · exact le_trans (le_max_right x y) (hbase (max x y) (List.mem_cons_self _ _))
      · exact hbase y (List.mem_cons_of_mem _ hy2)

theorem pyMax_cons (x : ℚ) (xs : List ℚ) :
    ∃ m, pyMax (x :: xs) = some m ∧ m ∈ x :: xs ∧ ∀ y ∈ x :: xs, y ≤ m :=
  ⟨xs.foldl max x, rfl, foldl_max_mem xs x, le_foldl_max xs x⟩

theorem confidences_ok (ps : List (List ℚ)) (h : ∀ row ∈ ps, row ≠ []) :
    ∃ cs, confidences ps = .ok cs ∧ cs.length = ps.length ∧
      ∀ i (h1 : i < ps.length) (h2 : i < cs.length),
        pyMax (ps.get ⟨i, h1⟩) = some (cs.get ⟨i, h2⟩) := by
  induction ps with
  | nil => exact ⟨[], rfl, rfl, fun i h1 _ => absurd h1 (Nat.not_lt_zero i)⟩
  | cons row rest ih =>
    obtain ⟨cs, hcs, hlen, hpt⟩ := ih fun r hr => h r (List.mem_cons_of_mem row hr)
    have hne := h row (List.mem_cons_self row rest)
    cases row with
    | nil => exact absurd rfl hne
    | cons x xs =>
      refine ⟨xs.foldl max x :: cs, ?_, by simp [hlen], ?_⟩
      · simp [confidences, pyMax, hcs]
      · intro i h1 h2
        cases i with
        | zero => rfl
        | succ n => exact hpt n (Nat.lt_of_succ_lt_succ h1) (Nat.lt_of_succ_lt_succ h2)

theorem confidences_error (ps : List (List ℚ)) (e : InfError)
    (h : confidences ps = .error e) : e = .emptySequenceMax := by
  induction ps with
  | nil => simp [confidences] at h
  | cons row rest ih =>
    unfold confidences at h
    cases hm : pyMax row with
    | none => rw [hm] at h; simp at h; exact h.symm
    | some m =>
      rw [hm] at h
      cases hc : confidences rest with
      | error e0 => rw [hc] at h; simp at h; subst h; exact ih hc
      | ok cs => rw [hc] at h; simp at h

theorem output_fn_ok (p : Prediction) (conf : List ℚ)
    (h : confidences p.probabilities = .ok conf) :
    output_fn p "application/json" = .ok (Json.obj
      [("optimal_hours", Json.arr (hoursJson p.predictions)),
       ("confidence", Json.arr (conf.map Json.num))], "application/json") := by
  simp [output_fn, h]

theorem hoursJson_length (labels : List Int) :
    (hoursJson labels).length = labels.length := by
  unfold hoursJson
  rw [List.length_map]

theorem sum_one_ne_nil (l : List ℚ) (h : l.sum = 1) : l ≠ [] := by
  intro hnil
  rw [hnil] at h
  simp at h

theorem input_fn_some (j : Json) :
    input_fn (some j) "application/json" = normalizeParsed j := rfl

theorem pyMax_some_spec (l : List ℚ) (m : ℚ) (h : pyMax l = some m) :
    m ∈ l ∧ ∀ y ∈ l, y ≤ m := by
  cases l with
  | nil => simp [pyMax] at h
  | cons x xs =>
    obtain ⟨m0, hm0, hmem, hle⟩ := pyMax_cons x xs
    rw [hm0] at h
    have hm : m0 = m := Option.some.inj h
    subst hm
    exact ⟨hmem, hle⟩

/-- Claim C1: for every well-formed Single payload (a parsed object binding
the key features to a 3-element sequence of numbers), input_fn with content
type application/json returns a matrix of exactly one row, and that row is
the input triple unchanged, element for element, with no reordering or
relabeling. -/
theorem C1_single_identity (entries : List (String × Json)) (a b c : ℚ)
    (h : lookupKey entries "features" =
      some (Json.arr [Json.num a, Json.num b, Json.num c])) :
    input_fn (some (Json.obj entries)) "application/json" =
      .ok [Json.arr [Json.num a, Json.num b, Json.num c]] := by
  rw [input_fn_some]
  exact normalizeParsed_features entries _ h

theorem C1_single_identity_witness :
    input_fn (some (Json.obj
        [("features", Json.arr [Json.num 1, Json.num 10, Json.num (1/2)])]))
      "application/json" =
      .ok [Json.arr [Json.num 1, Json.num 10, Json.num (1/2)]] :=
  C1_single_identity [("features", Json.arr [Json.num 1, Json.num 10, Json.num (1/2)])]
    1 10 (1/2) rfl

/-- Claim C2: for every Batch payload (a parsed object with a contacts key
bound to a sequence of objects and no features key), input_fn returns a
matrix with one row per contact, and the i-th row is the row built from the
i-th contact, so row order matches contact order. -/
theorem C2_batch_rows (entries : List (String × Json)) (contacts : List Json)
    (hnof : ∀ kv ∈ entries, kv.fst ≠ "features")
    (hc : lookupKey entries "contacts" = some (Json.arr contacts))
    (hobj : ∀ c ∈ contacts, ∃ ce, c = Json.obj ce) :
    ∃ rows, input_fn (some (Json.obj entries)) "application/json" = .ok rows ∧
      rows.length = contacts.length ∧
      ∀ i (h1 : i < contacts.length) (h2 : i < rows.length),
        contactRow (contacts.get ⟨i, h1⟩) = .ok (rows.get ⟨i, h2⟩) := by
  obtain ⟨rows, hrows, hlen, hpt⟩ := buildRows_ok contacts hobj
  refine ⟨rows, ?_, hlen, hpt⟩
  have hin : (entries.any fun kv => kv.fst = "features") = false := by
    rw [List.any_eq_false]
    intro kv hkv
    simpa using hnof kv hkv
  have hany := lookupKey_any entries "contacts" _ hc
  rw [input_fn_some]
  simp [normalizeParsed, pyIn, pyGetItem, pyIterate, hin, hany, hc, hrows]

theorem C2_batch_rows_witness :
    ∃ rows,
      input_fn (some (Json.obj [("contacts",
          Json.arr [Json.obj [], Json.obj [("day_of_week", Json.num 3)]])]))
        "application/json" = .ok rows ∧
      rows.length = [Json.obj [], Json.obj [("day_of_week", Json.num 3)]].length ∧
      ∀ i (h1 : i < [Json.obj [], Json.obj [("day_of_week", Json.num 3)]].length)
        (h2 : i < rows.length),
        contactRow ([Json.obj [], Json.obj [("day_of_week", Json.num 3)]].get ⟨i, h1⟩) =
          .ok (rows.get ⟨i, h2⟩) :=
  C2_batch_rows [("contacts", Json.arr [Json.obj [], Json.obj [("day_of_week", Json.num 3)]])]
    [Json.obj [], Json.obj [("day_of_week", Json.num 3)]]
    (by decide) rfl
    (by
      intro c hcm
      rcases List.mem_cons.mp hcm with rfl | hcm2
      · exact ⟨[], rfl⟩
      rcases List.mem_cons.mp hcm2 with rfl | hcm3
      · exact ⟨[("day_of_week", Json.num 3)], rfl⟩
      · exact absurd hcm3 (List.not_mem_nil c))

/-- Claim C3: each batch row reads day_of_week, hour_of_day,
previous_answer_rate in that order, substituting defaults 0, 12 and 1/2 for
missing keys and passing present values through unchanged; the empty contact
normalizes to the row (0, 12, 1/2). -/
theorem C3_defaults (entries : List (String × Json)) :
    contactRow (Json.obj entries) = .ok (Json.arr
      [(lookupKey entries "day_of_week").getD (Json.num 0),
       (lookupKey entries "hour_of_day").getD (Json.num 12),
       (lookupKey entries "previous_answer_rate").getD (Json.num (1/2))]) ∧
    input_fn (some (Json.obj [("contacts", Json.arr [Json.obj entries])]))
        "application/json" =
      .ok [Json.arr
        [(lookupKey entries "day_of_week").getD (Json.num 0),
         (lookupKey entries "hour_of_day").getD (Json.num 12),
         (lookupKey entries "previous_answer_rate").getD (Json.num (1/2))]] ∧
    input_fn (some (Json.obj [("contacts", Json.arr [Json.obj []])]))
        "application/json" =
      .ok [Json.arr [Json.num 0, Json.num 12, Json.num (1/2)]] :=
  ⟨rfl, rfl, rfl⟩

/-- Claim C6 counterexample: the well-formed payload binding features to the
non-sequence value 5 is not rejected: input_fn returns a one-row matrix
wrapping the scalar and raises no error at all, so the claimed
ValidationError does not occur. -/
theorem C6_counterexample :
    input_fn (some (Json.obj [("features", Json.num 5)])) "application/json" =
      .ok [Json.num 5] ∧
    ∀ e : InfError,
      input_fn (some (Json.obj [("features", Json.num 5)])) "application/json" ≠
        .error e := by
  constructor
  · rfl
  · intro e h
    rw [show input_fn (some (Json.obj [("features", Json.num 5)])) "application/json" =
      Except.ok [Json.num 5] from rfl] at h
    exact Except.noConfusion h

/-- Claim C6 amended: for a well-formed payload whose features value is
present but is not a sequence, input_fn does not fail with a
ValidationError: the non-sequence value is wrapped unchanged as the single
row of a one-row matrix and no error is raised (np.array accepts any
non-sequence scalar or mapping). -/
theorem C6_amended_no_shape_check (entries : List (String × Json)) (v : Json)
    (h : lookupKey entries "features" = some v)
    (_hns : ∀ elems, v ≠ Json.arr elems) :
    input_fn (some (Json.obj entries)) "application/json" = .ok [v] := by
  rw [input_fn_some]
  exact normalizeParsed_features entries v h

theorem C6_amended_witness :
    input_fn (some (Json.obj [("features", Json.str "not a sequence")]))
      "application/json" = .ok [Json.str "not a sequence"] :=
  C6_amended_no_shape_check [("features", Json.str "not a sequence")]
    (Json.str "not a sequence") rfl
    (fun _elems hcon => Json.noConfusion hcon)

/-- Claim C8: an empty contacts sequence normalizes without error to a
zero-row matrix, and the formatter applied to a zero-row prediction batch
returns the response pairing optimal_hours with the empty list and
confidence with the empty list, without failure. -/
theorem C8_empty_batch :
    input_fn (some (Json.obj [("contacts", Json.arr [])])) "application/json" =
      .ok [] ∧
    output_fn ⟨[], []⟩ "application/json" =
      .ok (Json.obj [("optimal_hours", Json.arr []), ("confidence", Json.arr [])],
        "application/json") :=
  ⟨rfl, rfl⟩

/-- Claim C4: for every prediction batch whose probability distributions are
non-negative and sum to 1, output_fn with accept application/json returns,
for every row i, a confidence equal to the maximum of the i-th distribution,
lying between 0 and 1 inclusive; the confidence list is computed from the
distributions alone and never from the predicted labels (any prediction with
the same distributions yields the same confidence list). -/
theorem C4_confidence_max (p : Prediction)
    (h : ∀ row ∈ p.probabilities, (∀ x ∈ row, 0 ≤ x) ∧ row.sum = 1) :
    ∃ conf, confidences p.probabilities = .ok conf ∧
      output_fn p "application/json" = .ok (Json.obj
        [("optimal_hours", Json.arr (hoursJson p.predictions)),
         ("confidence", Json.arr (conf.map Json.num))], "application/json") ∧
      conf.length = p.probabilities.length ∧
      (∀ i (h1 : i < p.probabilities.length) (h2 : i < conf.length),
        pyMax (p.probabilities.get ⟨i, h1⟩) = some (conf.get ⟨i, h2⟩) ∧
        conf.get ⟨i, h2⟩ ∈ p.probabilities.get ⟨i, h1⟩ ∧
        (∀ x ∈ p.probabilities.get ⟨i, h1⟩, x ≤ conf.get ⟨i, h2⟩) ∧
        0 ≤ conf.get ⟨i, h2⟩ ∧ conf.get ⟨i, h2⟩ ≤ 1) ∧
      (∀ q : Prediction, q.probabilities = p.probabilities →
        confidences q.probabilities = .ok conf) := by
  have hne : ∀ row ∈ p.probabilities, row ≠ [] :=
    fun row hr => sum_one_ne_nil row (h row hr).2
  obtain ⟨conf, hconf, hlen, hpt⟩ := confidences_ok p.probabilities hne
  refine ⟨conf, hconf, output_fn_ok p conf hconf, hlen, ?_, fun q hq => hq ▸ hconf⟩
  intro i h1 h2
  have hmax := hpt i h1 h2
  obtain ⟨hmem, hle⟩ := pyMax_some_spec _ _ hmax
  obtain ⟨hnn, hsum⟩ := h _ (List.get_mem p.probabilities i h1)
  refine ⟨hmax, hmem, hle, hnn _ hmem, ?_⟩
  have hbound := List.single_le_sum hnn _ hmem
  rw [hsum] at hbound
  exact hbound

theorem C4_confidence_max_witness :
    ∃ conf,
      confidences (Prediction.mk [10] [[1/10, 17/20, 1/20]]).probabilities = .ok conf ∧
      output_fn (Prediction.mk [10] [[1/10, 17/20, 1/20]]) "application/json" =
        .ok (Json.obj
          [("optimal_hours", Json.arr
            (hoursJson (Prediction.mk [10] [[1/10, 17/20, 1/20]]).predictions)),
           ("confidence", Json.arr (conf.map Json.num))], "application/json") ∧
      conf.length = (Prediction.mk [10] [[1/10, 17/20, 1/20]]).probabilities.length ∧
      (∀ i (h1 : i < (Prediction.mk [10] [[1/10, 17/20, 1/20]]).probabilities.length)
        (h2 : i < conf.length),
        pyMax ((Prediction.mk [10] [[1/10, 17/20, 1/20]]).probabilities.get ⟨i, h1⟩) =
          some (conf.get ⟨i, h2⟩) ∧
        conf.get ⟨i, h2⟩ ∈ (Prediction.mk [10] [[1/10, 17/20, 1/20]]).probabilities.get ⟨i, h1⟩ ∧
        (∀ x ∈ (Prediction.mk [10] [[1/10, 17/20, 1/20]]).probabilities.get ⟨i, h1⟩,
          x ≤ conf.get ⟨i, h2⟩) ∧
        0 ≤ conf.get ⟨i, h2⟩ ∧ conf.get ⟨i, h2⟩ ≤ 1) ∧
      (∀ q : Prediction,
        q.probabilities = (Prediction.mk [10] [[1/10, 17/20, 1/20]]).probabilities →
          confidences q.probabilities = .ok conf) :=
  C4_confidence_max (Prediction.mk [10] [[1/10, 17/20, 1/20]])
    (by
      intro row hr
      simp only [List.mem_singleton] at hr
      subst hr
      refine ⟨?_, by norm_num [List.sum_cons, List.sum_nil]⟩
      intro x hx
      simp only [List.mem_cons, List.not_mem_nil, or_false] at hx
      rcases hx with rfl | rfl | rfl <;> norm_num)

/-- Claim C5: input_fn fails with the missing-key ValueError exactly when the
successfully parsed payload contains neither a features key nor a contacts
key; this error is distinct from the JSONDecodeError raised when the bytes do
not parse at all; the payload binding only a data key yields the missing-key
error while an unparseable body yields the decode error. -/
theorem C5_error_taxonomy :
    (∀ j : Json, pyIn j "features" = .ok false → pyIn j "contacts" = .ok false →
      input_fn (some j) "application/json" = .error .missingKeyError) ∧
    (∀ j : Json, input_fn (some j) "application/json" = .error .missingKeyError →
      pyIn j "features" = .ok false ∧ pyIn j "contacts" = .ok false) ∧
    input_fn (some (Json.obj [("data", Json.arr [Json.num 1, Json.num 2, Json.num 3])]))
      "application/json" = .error .missingKeyError ∧
    input_fn none "application/json" = .error .jsonDecodeError ∧
    InfError.missingKeyError ≠ InfError.jsonDecodeError := by
  refine ⟨?_, ?_, rfl, rfl, by decide⟩
  · intro j hf hc
    rw [input_fn_some]
    exact (normalizeParsed_missing_iff j).mpr ⟨hf, hc⟩
  · intro j h
    rw [input_fn_some] at h
    exact (normalizeParsed_missing_iff j).mp h

theorem C5_error_taxonomy_witness :
    input_fn (some (Json.obj [("answer_rate", Json.num 1)])) "application/json" =
      .error .missingKeyError :=
  C5_error_taxonomy.1 (Json.obj [("answer_rate", Json.num 1)]) rfl rfl

/-- Claim C7: for every declared content type other than application/json,
input_fn raises the unsupported-media error without attempting to parse the
body (the same error results whether or not the body would parse), and for
every accept type other than application/json, output_fn raises the
unsupported-media error; for the supported type neither function ever raises
this error. -/
theorem C7_media_gate :
    (∀ content_type, content_type ≠ "application/json" → ∀ body : Option Json,
      input_fn body content_type = .error (.unsupportedContentType content_type)) ∧
    (∀ accept, accept ≠ "application/json" → ∀ p : Prediction,
      output_fn p accept = .error (.unsupportedAccept accept)) ∧
    (∀ (body : Option Json) (e : InfError),
      input_fn body "application/json" = .error e →
        ∀ ct, e ≠ .unsupportedContentType ct) ∧
    (∀ (p : Prediction) (e : InfError),
      output_fn p "application/json" = .error e → ∀ a, e ≠ .unsupportedAccept a) := by
  refine ⟨?_, ?_, ?_, ?_⟩
  · intro ct hne body
    unfold input_fn
    rw [if_neg hne]
  · intro acc hne p
    unfold output_fn
    rw [if_neg hne]
  · intro body e h ct
    cases body with
    | none =>
      rw [show input_fn none "application/json" =
        Except.error InfError.jsonDecodeError from rfl] at h
      have := Except.error.inj h
      subst this
      exact fun hcon => InfError.noConfusion hcon
    | some j =>
      rw [input_fn_some] at h
      rcases normalizeParsed_error_cases j e h with h1 | h1 | h1 | h1 <;> subst h1 <;>
        exact fun hcon => InfError.noConfusion hcon
  · intro p e h a
    unfold output_fn at h
    rw [if_pos rfl] at h
    cases hc : confidences p.probabilities with
    | error e0 =>
      rw [hc] at h
      simp at h
      subst h
      have he := confidences_error _ _ hc
      subst he
      exact fun hcon => InfError.noConfusion hcon
    | ok conf =>
      rw [hc] at h
      simp at h

theorem C7_media_gate_witness :
    input_fn none "text/csv" = .error (.unsupportedContentType "text/csv") ∧
    output_fn ⟨[], []⟩ "text/csv" = .error (.unsupportedAccept "text/csv") :=
  ⟨C7_media_gate.1 "text/csv" (by decide) none,
   C7_media_gate.2.1 "text/csv" (by decide) ⟨[], []⟩⟩

/-- Claim C9: for every prediction batch whose label sequence and probability
matrix both have length N (with each distribution a genuine probability
distribution, summing to 1), output_fn with accept application/json is total:
it returns a response without raising, and the returned optimal_hours and
confidence sequences each have length N. -/
theorem C9_formatter_total (p : Prediction) (N : ℕ)
    (hlab : p.predictions.length = N)
    (hprob : p.probabilities.length = N)
    (hsum : ∀ row ∈ p.probabilities, row.sum = 1) :
    ∃ conf : List ℚ,
      output_fn p "application/json" = .ok (Json.obj
        [("optimal_hours", Json.arr (hoursJson p.predictions)),
         ("confidence", Json.arr (conf.map Json.num))], "application/json") ∧
      (conf.map Json.num).length = N ∧
      (hoursJson p.predictions).length = N := by
  obtain ⟨conf, hconf, hlen, _⟩ := confidences_ok p.probabilities
    (fun row hr => sum_one_ne_nil row (hsum row hr))
  refine ⟨conf, output_fn_ok p conf hconf, ?_, ?_⟩
  · rw [List.length_map, hlen, hprob]
  · rw [hoursJson_length, hlab]

theorem C9_formatter_total_witness :
    ∃ conf : List ℚ,
      output_fn (Prediction.mk [10, 19] [[1/2, 1/2], [1, 0]]) "application/json" =
        .ok (Json.obj
          [("optimal_hours", Json.arr
            (hoursJson (Prediction.mk [10, 19] [[1/2, 1/2], [1, 0]]).predictions)),
           ("confidence", Json.arr (conf.map Json.num))], "application/json") ∧
      (conf.map Json.num).length = 2 ∧
      (hoursJson (Prediction.mk [10, 19] [[1/2, 1/2], [1, 0]]).predictions).length = 2 :=
  C9_formatter_total (Prediction.mk [10, 19] [[1/2, 1/2], [1, 0]]) 2 rfl rfl
    (by
      intro row hr
      rcases List.mem_cons.mp hr with rfl | hr2
      · norm_num [List.sum_cons, List.sum_nil]
      rcases List.mem_cons.mp hr2 with rfl | hr3
      · norm_num [List.sum_cons, List.sum_nil]
      · exact absurd hr3 (List.not_mem_nil row))
